import Mathlib

/-!
Verification development for the Odyssey repository: a task-orchestration
"boss" core (state machine, task manager, assignee dispatch) described by
the repository's design material, together with two React components that
are present as source (SafeLavaLamp, TradingBotGraphic).

The boss core itself ships in the repository only as design/README
material, so its definitions below are modelled from the specification
text; the two React components are embedded from their TypeScript source.
-/

namespace DspyBoss

/-- Modelled from the spec: Task lifecycle statuses
`Pending|Running|AwaitingHuman|Completed|Failed|Cancelled` (section 3). -/
inductive TaskStatus where
  | Pending
  | Running
  | AwaitingHuman
  | Completed
  | Failed
  | Cancelled
deriving DecidableEq, Repr

/-- Modelled from the spec: error kinds of section 7, plus `CancelledTask`,
the structured record reported when `cancel` marks a task `Cancelled`
(section 4.2 "reports Cancelled"; section 7 requires every terminal task to
expose exactly one of a result or a structured error). -/
inductive ErrKind where
  | DuplicateTaskError
  | InvalidAssigneeError
  | InvalidTransitionError
  | HumanTimeout
  | AssigneeExecutionError
  | RethinkBudgetExceeded
  | CancelledTask
deriving DecidableEq, Repr

/-- Modelled from the spec: `AssigneeRef` is polymorphic over
`SubBoss(bossId)` and `HumanAgent(agentId)` (section 3). -/
inductive AssigneeRef where
  | SubBoss (bossId : Nat)
  | HumanAgent (agentId : Nat)
deriving DecidableEq, Repr

/-- Modelled from the spec: Task record of section 3 with id, description,
creation time, optional assignee, status, optional result payload, optional
failure record and optional deadline. Timestamps are abstract `Nat` ticks. -/
structure Task where
  id : Nat
  description : String
  createdAt : Nat
  assignee : Option AssigneeRef
  status : TaskStatus
  result : Option String
  error : Option ErrKind
  deadline : Option Nat
deriving DecidableEq, Repr

/-- Modelled from the spec: `HumanAwaitingEntry = {taskId, prompt, askedAt,
timeoutAt}` (section 3). -/
structure HumanAwaitingEntry where
  taskId : Nat
  prompt : String
  askedAt : Nat
  timeoutAt : Nat
deriving DecidableEq, Repr

/-- Modelled from the spec: the nine Boss lifecycle states (section 3). -/
inductive BossState where
  | idle
  | awake
  | executing
  | researching
  | thinking
  | rethink
  | reflecting
  | restart
  | stop
deriving DecidableEq, Repr

/-- Modelled from the spec: the events of the transition table in
section 4.1. `synthesis_done` carries whether more tasks are queued;
`reflection_done` carries whether the failure was recoverable. -/
inductive Event where
  | submit_task
  | begin_dispatch
  | enter_research
  | research_done
  | synthesis_done (moreQueued : Bool)
  | synthesis_rejected
  | rethink_retry
  | task_failed
  | reflection_done (recoverable : Bool)
  | external_stop
deriving DecidableEq, Repr

/-- Modelled from the spec: per-Boss state-machine data: the current
lifecycle state and the rethink counter bounding the rethink loop. -/
structure SMState where
  state : BossState
  rethinkCount : Nat
deriving DecidableEq, Repr

/-- Modelled from the spec: the allowed source states of each event per the
transition table of section 4.1 (`external_stop` is allowed from any
state). -/
def eventAllowed (s : BossState) (e : Event) : Bool :=
  match e, s with
  | .submit_task, .idle | .submit_task, .awake => true
  | .begin_dispatch, .awake => true
  | .enter_research, .executing => true
  | .research_done, .researching => true
  | .synthesis_done _, .thinking => true
  | .synthesis_rejected, .thinking => true
  | .rethink_retry, .rethink => true
  | .task_failed, .executing | .task_failed, .researching | .task_failed, .thinking => true
  | .reflection_done _, .reflecting => true
  | .external_stop, _ => true
  | _, _ => false

/-- Modelled from the spec: one state-machine step. An event not in the
table for the current state is rejected with `InvalidTransitionError`.
`synthesis_rejected` goes to `rethink` while `rethinkCount < maxR`,
incrementing the counter, and otherwise to `reflecting`, emitting
`RethinkBudgetExceeded` as the second component. -/
def smStep (maxR : Nat) (s : SMState) (e : Event) :
    Except ErrKind (SMState × Option ErrKind) :=
  if eventAllowed s.state e then
    match e with
    | .submit_task => .ok (⟨.awake, s.rethinkCount⟩, none)
    | .begin_dispatch => .ok (⟨.executing, s.rethinkCount⟩, none)
    | .enter_research => .ok (⟨.researching, s.rethinkCount⟩, none)
    | .research_done => .ok (⟨.thinking, s.rethinkCount⟩, none)
    | .synthesis_done more => .ok (⟨if more then .awake else .idle, s.rethinkCount⟩, none)
    | .synthesis_rejected =>
        if s.rethinkCount < maxR then .ok (⟨.rethink, s.rethinkCount + 1⟩, none)
        else .ok (⟨.reflecting, s.rethinkCount⟩, some .RethinkBudgetExceeded)
    | .rethink_retry => .ok (⟨.researching, s.rethinkCount⟩, none)
    | .task_failed => .ok (⟨.reflecting, s.rethinkCount⟩, none)
    | .reflection_done recov => .ok (⟨if recov then .restart else .stop, s.rethinkCount⟩, none)
    | .external_stop => .ok (⟨.stop, s.rethinkCount⟩, none)
  else .error .InvalidTransitionError

/-- Modelled from the spec: apply an event, leaving the state-machine state
unchanged when the event is rejected. -/
def smApply (maxR : Nat) (s : SMState) (e : Event) : SMState :=
  match smStep maxR s e with
  | .ok (s', _) => s'
  | .error _ => s

/-- Modelled from the spec: a Boss composes the state machine, the task
manager's active-task map and awaiting-human tracking, the assignee
registry, and its sub-boss children (sections 2, 3). The task map is an
association list keyed by task id. -/
structure Boss where
  bossId : Nat
  maxRethink : Nat
  registry : List AssigneeRef
  sm : SMState
  activeTasks : List (Nat × Task)
  awaiting : List HumanAwaitingEntry
  children : List Nat
deriving DecidableEq, Repr

/-- Association-list lookup of a task by id. -/
def lookupTask : List (Nat × Task) → Nat → Option Task
  | [], _ => none
  | (i, t) :: rest, tid => if i = tid then some t else lookupTask rest tid

/-- Apply a key-aware function to every task value, keeping the keys. -/
def mapTasks (g : Nat → Task → Task) (l : List (Nat × Task)) : List (Nat × Task) :=
  l.map fun p => (p.1, g p.1 p.2)

/-- Update the single task stored under `tid`. -/
def updTask (l : List (Nat × Task)) (tid : Nat) (f : Task → Task) : List (Nat × Task) :=
  mapTasks (fun i t => if i = tid then f t else t) l

/-- Remove all awaiting-human entries of a given task id. -/
def removeEntries (l : List HumanAwaitingEntry) (tid : Nat) : List HumanAwaitingEntry :=
  l.filter fun e => decide (e.taskId ≠ tid)

/-- Whether a status is terminal (`Completed`, `Failed` or `Cancelled`). -/
def isTerminal : TaskStatus → Bool
  | .Completed | .Failed | .Cancelled => true
  | _ => false

/-- Mark a task failed with a structured error record. -/
def failTask (t : Task) (err : ErrKind) : Task :=
  { t with status := .Failed, error := some err }

/-- Mark a task cancelled, recording the structured cancellation record. -/
def cancelMark (t : Task) : Task :=
  { t with status := .Cancelled, error := some .CancelledTask }

/-- Modelled from the spec: states in which a Boss accepts new task
submissions (`submit_task` sources: `idle` and `awake`). -/
def acceptingState : BossState → Bool
  | .idle | .awake => true
  | _ => false

/-- Modelled from the spec: a HumanAgent submission must carry a timeout
deadline; omitting one is a configuration error at submission time. -/
def needsDeadline : AssigneeRef → Option Nat → Bool
  | .HumanAgent _, none => true
  | _, _ => false

/-- Fresh task record created at submission. -/
def mkTask (tid : Nat) (desc : String) (now : Nat) (a : AssigneeRef)
    (dl : Option Nat) : Task :=
  { id := tid, description := desc, createdAt := now, assignee := some a,
    status := .Pending, result := none, error := none, deadline := dl }

/-- Modelled from the spec: `submitTask` (sections 4.2, 6). Rejected with
`InvalidTransitionError` unless the Boss is in an accepting state (in
particular always rejected in `stop`, leaving the Boss untouched); fails
with `DuplicateTaskError` on an existing id and `InvalidAssigneeError` on
an unresolvable assignee or a HumanAgent submission without a timeout;
otherwise registers a `Pending` task and moves the state machine to
`awake`. -/
def Boss.submitTask (b : Boss) (now tid : Nat) (desc : String)
    (a : AssigneeRef) (dl : Option Nat) : Boss × Except ErrKind Nat :=
  if acceptingState b.sm.state then
    if (lookupTask b.activeTasks tid).isSome then (b, .error .DuplicateTaskError)
    else if a ∈ b.registry then
      if needsDeadline a dl then (b, .error .InvalidAssigneeError)
      else ({ b with sm := ⟨.awake, b.sm.rethinkCount⟩,
                     activeTasks := (tid, mkTask tid desc now a dl) :: b.activeTasks },
            .ok tid)
    else (b, .error .InvalidAssigneeError)
  else (b, .error .InvalidTransitionError)

/-- Modelled from the spec: `dispatch` (sections 4.2, 4.3). Re-dispatching
a `Running` task is a no-op that returns the existing outcome handle. A
`Pending` task dispatched to a SubBoss starts `Running`; dispatched to a
HumanAgent it immediately enters `AwaitingHuman` with a
`HumanAwaitingEntry` carrying its mandatory deadline. Any other situation
is rejected without change. -/
def Boss.dispatch (b : Boss) (now tid : Nat) : Boss × Except ErrKind Nat :=
  match lookupTask b.activeTasks tid with
  | none => (b, .error .InvalidTransitionError)
  | some t =>
    match t.status with
    | .Running => (b, .ok tid)
    | .Pending =>
      match t.assignee with
      | some (.SubBoss _) =>
          ({ b with activeTasks := updTask b.activeTasks tid
                      (fun u => { u with status := .Running }) }, .ok tid)
      | some (.HumanAgent _) =>
        match t.deadline with
        | some dl =>
            ({ b with activeTasks := updTask b.activeTasks tid
                        (fun u => { u with status := .AwaitingHuman }),
                      awaiting := ⟨tid, t.description, now, dl⟩ :: b.awaiting },
             .ok tid)
        | none => (b, .error .InvalidAssigneeError)
      | none => (b, .error .InvalidAssigneeError)
    | _ => (b, .error .InvalidTransitionError)

/-- Modelled from the spec: `awaitHuman` (section 4.2) moves a `Running`
task to `AwaitingHuman` and creates its `HumanAwaitingEntry` in the same
step. -/
def Boss.awaitHuman (b : Boss) (now tid : Nat) (prompt : String)
    (timeout : Nat) : Boss × Except ErrKind Unit :=
  match lookupTask b.activeTasks tid with
  | some t =>
    if t.status = .Running then
      ({ b with activeTasks := updTask b.activeTasks tid
                  (fun u => { u with status := .AwaitingHuman }),
                awaiting := ⟨tid, prompt, now, now + timeout⟩ :: b.awaiting },
       .ok ())
    else (b, .error .InvalidTransitionError)
  | none => (b, .error .InvalidTransitionError)

/-- Modelled from the spec: `resume` (section 4.2) supplies a human
response, returns the task to `Running` and removes its
`HumanAwaitingEntry`. -/
def Boss.resume (b : Boss) (tid : Nat) (_response : String) :
    Boss × Except ErrKind Unit :=
  match lookupTask b.activeTasks tid with
  | some t =>
    if t.status = .AwaitingHuman then
      ({ b with activeTasks := updTask b.activeTasks tid
                  (fun u => { u with status := .Running }),
                awaiting := removeEntries b.awaiting tid },
       .ok ())
    else (b, .error .InvalidTransitionError)
  | none => (b, .error .InvalidTransitionError)

/-- Modelled from the spec: `cancel` (section 4.2) marks a non-terminal
task `Cancelled` and removes any `HumanAwaitingEntry`; a task already in a
terminal status is left untouched. -/
def Boss.cancel (b : Boss) (tid : Nat) : Boss × Except ErrKind Unit :=
  match lookupTask b.activeTasks tid with
  | some t =>
    if isTerminal t.status then (b, .ok ())
    else
      ({ b with activeTasks := updTask b.activeTasks tid cancelMark,
                awaiting := removeEntries b.awaiting tid },
       .ok ())
  | none => (b, .error .InvalidTransitionError)

/-- Modelled from the spec: an assignee reports success; the `Running`
task becomes `Completed` with the result payload attached. -/
def Boss.complete (b : Boss) (tid : Nat) (payload : String) :
    Boss × Except ErrKind Unit :=
  match lookupTask b.activeTasks tid with
  | some t =>
    if t.status = .Running then
      ({ b with activeTasks := updTask b.activeTasks tid
                  (fun u => { u with status := .Completed, result := some payload }) },
       .ok ())
    else (b, .error .InvalidTransitionError)
  | none => (b, .error .InvalidTransitionError)

/-- Modelled from the spec: a task-local failure is captured on the task
(status `Failed`, the structured error attached, any awaiting entry
removed) and raised as a `task_failed` event to the state machine
(section 7 propagation policy). Terminal tasks are left untouched. -/
def Boss.failTaskOp (b : Boss) (tid : Nat) (err : ErrKind) :
    Boss × Except ErrKind Unit :=
  match lookupTask b.activeTasks tid with
  | some t =>
    if isTerminal t.status then (b, .error .InvalidTransitionError)
    else
      ({ b with activeTasks := updTask b.activeTasks tid (fun u => failTask u err),
                awaiting := removeEntries b.awaiting tid,
                sm := smApply b.maxRethink b.sm .task_failed },
       .ok ())
  | none => (b, .error .InvalidTransitionError)

/-- Modelled from the spec: raising an event into the Boss state machine.
A rejected event surfaces `InvalidTransitionError` to the caller, leaves
the state-machine state unchanged, and marks the triggering task, when one
exists and is not yet terminal, as `Failed` (section 4.1). -/
def Boss.raiseEvent (b : Boss) (trigger : Option Nat) (e : Event) :
    Boss × Except ErrKind Unit :=
  match smStep b.maxRethink b.sm e with
  | .ok (s', _) => ({ b with sm := s' }, .ok ())
  | .error err =>
    match trigger with
    | none => (b, .error err)
    | some tid =>
      match lookupTask b.activeTasks tid with
      | some t =>
        if isTerminal t.status then (b, .error err)
        else
          ({ b with activeTasks := updTask b.activeTasks tid
                      (fun u => failTask u .InvalidTransitionError),
                    awaiting := removeEntries b.awaiting tid },
           .error err)
      | none => (b, .error err)

/-- Whether an awaiting-human entry's timeout has elapsed at `now`. -/
def expiredAt (now : Nat) (e : HumanAwaitingEntry) : Bool :=
  decide (e.timeoutAt ≤ now)

/-- Modelled from the spec: the task manager's autonomous timeout pass at
time `now`. Every `HumanAwaitingEntry` whose `timeoutAt` has elapsed is
removed, its task (still `AwaitingHuman`) is marked `Failed` with a
`HumanTimeout` error, and a `task_failed` event is raised to the owning
Boss's state machine (section 4.2 timeout policy). -/
def Boss.tick (b : Boss) (now : Nat) : Boss :=
  { b with
    activeTasks := mapTasks
      (fun i t =>
        if i ∈ ((b.awaiting.filter (expiredAt now)).map (fun e => e.taskId)) ∧
           t.status = .AwaitingHuman
        then failTask t .HumanTimeout else t)
      b.activeTasks,
    awaiting := b.awaiting.filter (fun e => !expiredAt now e),
    sm := if b.awaiting.any (expiredAt now) then smApply b.maxRethink b.sm .task_failed
          else b.sm }

/-- Modelled from the spec: `stop()` makes the Boss terminal: the state
machine moves to `stop`, all non-terminal tasks are marked `Cancelled`,
and the awaiting-human tracking is cleared (sections 4.1, 6). -/
def Boss.stopBoss (b : Boss) : Boss :=
  { b with sm := ⟨.stop, b.sm.rethinkCount⟩,
           activeTasks := mapTasks
             (fun _ t => if isTerminal t.status then t else cancelMark t)
             b.activeTasks,
           awaiting := [] }

/-- Status of a task as reported by `getStatus`. -/
def statusOf (b : Boss) (tid : Nat) : Option TaskStatus :=
  (lookupTask b.activeTasks tid).map (fun t => t.status)

/-- Structured error record of a task as reported by `getStatus`. -/
def errorOf (b : Boss) (tid : Nat) : Option ErrKind :=
  (lookupTask b.activeTasks tid).bind (fun t => t.error)

/-- Whether a `HumanAwaitingEntry` for `tid` is currently tracked. -/
def hasEntry (b : Boss) (tid : Nat) : Prop :=
  ∃ e ∈ b.awaiting, e.taskId = tid

instance (b : Boss) (tid : Nat) : Decidable (hasEntry b tid) := by
  unfold hasEntry; infer_instance

/-- Modelled from the spec: a freshly constructed Boss: `idle`, zero
rethink count, no tasks, no awaiting entries, no children. -/
def initBoss (bid maxR : Nat) (reg : List AssigneeRef) : Boss :=
  { bossId := bid, maxRethink := maxR, registry := reg,
    sm := ⟨.idle, 0⟩, activeTasks := [], awaiting := [], children := [] }

/-- One step of the system: some public or internal operation applied to a
Boss. -/
inductive OpStep : Boss → Boss → Prop where
  | submit (b : Boss) (now tid : Nat) (desc : String) (a : AssigneeRef)
      (dl : Option Nat) : OpStep b (b.submitTask now tid desc a dl).1
  | dispatch (b : Boss) (now tid : Nat) : OpStep b (b.dispatch now tid).1
  | awaitH (b : Boss) (now tid : Nat) (prompt : String) (timeout : Nat) :
      OpStep b (b.awaitHuman now tid prompt timeout).1
  | resume (b : Boss) (tid : Nat) (response : String) :
      OpStep b (b.resume tid response).1
  | cancel (b : Boss) (tid : Nat) : OpStep b (b.cancel tid).1
  | complete (b : Boss) (tid : Nat) (payload : String) :
      OpStep b (b.complete tid payload).1
  | fail (b : Boss) (tid : Nat) (err : ErrKind) :
      OpStep b (b.failTaskOp tid err).1
  | raiseEv (b : Boss) (trigger : Option Nat) (e : Event) :
      OpStep b (b.raiseEvent trigger e).1
  | tick (b : Boss) (now : Nat) : OpStep b (b.tick now)
  | stopB (b : Boss) : OpStep b b.stopBoss

/-- States reachable from a given Boss by any sequence of operations. -/
inductive Reachable (b0 : Boss) : Boss → Prop where
  | init : Reachable b0 b0
  | step {b b' : Boss} : Reachable b0 b → OpStep b b' → Reachable b0 b'

/-- Numeric position of a status in the declared forward order. -/
def statusOrd : TaskStatus → Nat
  | .Pending => 0
  | .Running => 1
  | .AwaitingHuman => 2
  | .Completed => 3
  | .Failed => 4
  | .Cancelled => 5

/-- The transition relation the spec permits on task statuses: forward in
the declared order, with `AwaitingHuman → Running` as the only backward
transition; never out of a terminal status. (Any non-terminal status to
`Cancelled` is forward, hence always permitted.) -/
def allowedTransition (s s' : TaskStatus) : Prop :=
  isTerminal s = false ∧ (statusOrd s < statusOrd s' ∨ (s = .AwaitingHuman ∧ s' = .Running))

instance (s s' : TaskStatus) : Decidable (allowedTransition s s') := by
  unfold allowedTransition; infer_instance

/-- What one operation may do to one task's observed status: leave it
alone, create it as `Pending`, or change it along `allowedTransition`. -/
def statusStepOk : Option TaskStatus → Option TaskStatus → Prop
  | none, none => True
  | none, some s' => s' = .Pending
  | some s, some s' => s' = s ∨ allowedTransition s s'
  | some _, none => False

instance (so so' : Option TaskStatus) : Decidable (statusStepOk so so') := by
  unfold statusStepOk
  cases so <;> cases so' <;> infer_instance

/-- A task's terminal outcome discipline: exactly one of result and error
on terminal statuses, neither before. -/
def taskOutcomeOk (t : Task) : Prop :=
  match t.status with
  | .Completed => t.result.isSome = true ∧ t.error = none
  | .Failed => t.result = none ∧ t.error.isSome = true
  | .Cancelled => t.result = none ∧ t.error.isSome = true
  | _ => t.result = none ∧ t.error = none

/-- The system invariant: every awaiting entry points at an existing
`AwaitingHuman` task, every `AwaitingHuman` task has an entry, and every
task obeys the outcome discipline. -/
def Inv (b : Boss) : Prop :=
  (∀ e ∈ b.awaiting, ∃ t, lookupTask b.activeTasks e.taskId = some t ∧
      t.status = .AwaitingHuman) ∧
  (∀ tid t, lookupTask b.activeTasks tid = some t →
      (t.status = .AwaitingHuman → ∃ e ∈ b.awaiting, e.taskId = tid) ∧ taskOutcomeOk t) ∧
  b.awaiting.Pairwise (fun e1 e2 => e1.taskId ≠ e2.taskId)

/-- One full rejection round of the rethink loop: `synthesis_rejected`,
then, when the machine entered `rethink`, the `rethink_retry` and
`research_done` steps that bring it back to `thinking`. Rejected events
leave the state where it stopped. -/
def rejectCycle (maxR : Nat) (s : SMState) : SMState :=
  match smStep maxR s .synthesis_rejected with
  | .error _ => s
  | .ok (s1, _) =>
    match smStep maxR s1 .rethink_retry with
    | .error _ => s1
    | .ok (s2, _) =>
      match smStep maxR s2 .research_done with
      | .error _ => s2
      | .ok (s3, _) => s3

/-- Iterated rejection rounds. -/
def rejectRounds (maxR : Nat) : Nat → SMState → SMState
  | 0, s => s
  | n + 1, s => rejectRounds maxR n (rejectCycle maxR s)

/-- Concrete fixture: a Boss whose registry holds one SubBoss assignee. -/
def wSub : Boss := initBoss 0 2 [.SubBoss 1]

/-- Fixture: task 1 submitted to the SubBoss. -/
def wS1 : Boss := (wSub.submitTask 0 1 "delegate" (.SubBoss 1) none).1

/-- Fixture: task 1 dispatched, hence `Running`. -/
def wS2 : Boss := (wS1.dispatch 0 1).1

/-- Fixture: task 1 completed with a result payload. -/
def wS3 : Boss := (wS2.complete 1 "done").1

/-- Concrete fixture: a Boss whose registry holds one HumanAgent. -/
def wHub : Boss := initBoss 0 2 [.HumanAgent 7]

/-- Fixture: task 1 submitted to the HumanAgent with a 5-unit deadline. -/
def wH1 : Boss := (wHub.submitTask 0 1 "ask" (.HumanAgent 7) (some 5)).1

/-- Fixture: task 1 dispatched, hence `AwaitingHuman` with an entry. -/
def wH2 : Boss := (wH1.dispatch 0 1).1

/-- Fixture: `begin_dispatch` raised, Boss now `executing` while task 1
waits on the human. -/
def wH3 : Boss := (wH2.raiseEvent none .begin_dispatch).1

/-- Fixture: a stopped Boss. -/
def wStop : Boss := wSub.stopBoss

end DspyBoss

namespace SafeLavaLamp

/-- Outcome of `require("./fluid-blob")` inside the try block: the module
either yields the LavaLamp component or throws with a message. -/
inductive LoadResult where
  | loaded (comp : String)
  | throws (msg : String)
deriving DecidableEq, Repr

/-- React state of the component: the `showLamp` flag set by the 100ms
mount timer and the recorded error message (`null` initially). -/
structure LampState where
  showLamp : Bool
  errorMsg : Option String
deriving DecidableEq, Repr

/-- What one render returns to the parent: `null` or the LavaLamp
element. -/
inductive Rendered where
  | nullRender
  | lampElement (comp : String)
deriving DecidableEq, Repr

/-- State on the first render: `useState(false)` and `useState(null)`. -/
def initialState : LampState := { showLamp := false, errorMsg := none }

/-- The mount effect's timer callback: after 100ms, `setShowLamp(true)`. -/
def afterMountTimer (st : LampState) : LampState := { st with showLamp := true }

/-- One render of SafeLavaLamp: return `null` when an error was recorded;
return `null` while `showLamp` is still false; otherwise require the
fluid-blob module inside try/catch, rendering the LavaLamp on success and
recording the thrown message while returning `null` on failure. -/
def render (st : LampState) (load : LoadResult) : Rendered × LampState :=
  match st.errorMsg with
  | some _ => (.nullRender, st)
  | none =>
    if st.showLamp = false then (.nullRender, st)
    else
      match load with
      | .loaded c => (.lampElement c, st)
      | .throws m => (.nullRender, { st with errorMsg := some m })

end SafeLavaLamp

namespace TradingBotGraphic

/-- One point of the recharts line chart: month name and `uv` value. -/
structure ChartPoint where
  name : String
  uv : Nat
deriving DecidableEq, Repr

/-- The module-level `data` constant of TradingBotGraphic.tsx. -/
def data : List ChartPoint :=
  [⟨"Jan", 4000⟩, ⟨"Feb", 3000⟩, ⟨"Mar", 2000⟩, ⟨"Apr", 2780⟩,
   ⟨"May", 1890⟩, ⟨"Jun", 2390⟩, ⟨"Jul", 3490⟩]

/-- The data-bearing content of one render of the component: the fixed
labels and the chart data fed to the main chart and to the reflection
copy. -/
structure Output where
  timeLabel : String
  heading : String
  balance : String
  deltaLabel : String
  chartMain : List ChartPoint
  chartReflection : List ChartPoint
  buttonLabel : String
deriving DecidableEq, Repr

/-- One render of TradingBotGraphic. The component takes no props, so a
render depends on nothing but the module-level constants. -/
def render (_u : Unit) : Output :=
  { timeLabel := "9:41 AM", heading := "AI Trading Bot",
    balance := "12,345.67", deltaLabel := "+2.5% Today",
    chartMain := data, chartReflection := data,
    buttonLabel := "Activate Bot" }

end TradingBotGraphic

namespace DspyBoss

theorem lookupTask_mapTasks (g : Nat → Task → Task) (l : List (Nat × Task)) (tid : Nat) :
    lookupTask (mapTasks g l) tid = (lookupTask l tid).map (g tid) := by
  induction l with
  | nil => rfl
  | cons p rest ih =>
    obtain ⟨i, t⟩ := p
    by_cases h : i = tid
    · subst h; simp [mapTasks, lookupTask]
    · simp only [mapTasks, List.map_cons, lookupTask, if_neg h] at *
      exact ih

theorem lookupTask_updTask (l : List (Nat × Task)) (tid tid' : Nat) (f : Task → Task) :
    lookupTask (updTask l tid f) tid' =
      (lookupTask l tid').map (fun t => if tid' = tid then f t else t) := by
  simp [updTask, lookupTask_mapTasks]

theorem smStep_not_allowed (maxR : Nat) (s : SMState) (e : Event)
    (h : eventAllowed s.state e = false) :
    smStep maxR s e = .error .InvalidTransitionError := by
  simp [smStep, h]

theorem smApply_task_failed (maxR : Nat) (s : SMState)
    (h : s.state = .executing ∨ s.state = .researching ∨ s.state = .thinking) :
    smApply maxR s .task_failed = ⟨.reflecting, s.rethinkCount⟩ := by
  have : eventAllowed s.state .task_failed = true := by
    rcases h with h | h | h <;> rw [h] <;> rfl
  simp [smApply, smStep, this]

theorem rejectCycle_thinking (maxR c : Nat) :
    rejectCycle maxR ⟨.thinking, c⟩ =
      if c < maxR then ⟨.thinking, c + 1⟩ else ⟨.reflecting, c⟩ := by
  by_cases h : c < maxR <;> simp [rejectCycle, smStep, eventAllowed, h]

theorem rejectCycle_reflecting (maxR c : Nat) :
    rejectCycle maxR ⟨.reflecting, c⟩ = ⟨.reflecting, c⟩ := by
  simp [rejectCycle, smStep, eventAllowed]

theorem rejectRounds_reflecting (maxR n c : Nat) :
    rejectRounds maxR n ⟨.reflecting, c⟩ = ⟨.reflecting, c⟩ := by
  induction n with
  | zero => rfl
  | succ m ih => simp [rejectRounds, rejectCycle_reflecting, ih]

theorem rejectRounds_reaches_reflecting (maxR : Nat) :
    ∀ n c, 1 ≤ n → maxR < c + n →
      (rejectRounds maxR n ⟨.thinking, c⟩).state = .reflecting := by
  intro n
  induction n with
  | zero => intro c h; omega
  | succ m ih =>
    intro c _ hbound
    simp only [rejectRounds, rejectCycle_thinking]
    by_cases hc : c < maxR
    · rw [if_pos hc]
      have hm : 1 ≤ m := by omega
      exact ih (c + 1) hm (by omega)
    · rw [if_neg hc, rejectRounds_reflecting]

/-- C2: an event not listed for the current state in the transition table
is rejected with `InvalidTransitionError`, the state-machine state is
unchanged by the rejected event, and the triggering task, when one exists
and is not yet terminal, is marked `Failed`; the error is surfaced to the
caller. -/
theorem invalid_event_rejected_atomically (b : Boss) (trigger : Option Nat)
    (e : Event) (h : eventAllowed b.sm.state e = false) :
    (b.raiseEvent trigger e).2 = .error .InvalidTransitionError ∧
    (b.raiseEvent trigger e).1.sm = b.sm ∧
    (∀ tid, trigger = some tid → ∀ s, statusOf b tid = some s →
      isTerminal s = false →
      statusOf (b.raiseEvent trigger e).1 tid = some .Failed ∧
      errorOf (b.raiseEvent trigger e).1 tid = some .InvalidTransitionError) := by
  have hsm : smStep b.maxRethink b.sm e = .error .InvalidTransitionError :=
    smStep_not_allowed _ _ _ h
  match trigger with
  | none => simp [Boss.raiseEvent, hsm]
  | some tid0 =>
    match hl : lookupTask b.activeTasks tid0 with
    | none =>
      refine ⟨by simp [Boss.raiseEvent, hsm, hl], by simp [Boss.raiseEvent, hsm, hl], ?_⟩
      intro tid htid s hs hterm
      injection htid with htid; subst htid
      rw [statusOf, hl] at hs; simp at hs
    | some t =>
      by_cases hterm0 : isTerminal t.status = true
      · refine ⟨by simp [Boss.raiseEvent, hsm, hl, hterm0],
               by simp [Boss.raiseEvent, hsm, hl, hterm0], ?_⟩
        intro tid htid s hs hterm
        injection htid with htid; subst htid
        rw [statusOf, hl] at hs; simp at hs
        rw [hs] at hterm0; rw [hterm0] at hterm; cases hterm
      · have hterm0' : isTerminal t.status = false := by
          cases hb : isTerminal t.status
          · rfl
          · exact absurd hb hterm0
        refine ⟨by simp [Boss.raiseEvent, hsm, hl, hterm0'], by simp [Boss.raiseEvent, hsm, hl, hterm0'], ?_⟩
        intro tid htid s hs hterm
        injection htid with htid; subst htid
        constructor
        · rw [statusOf]
          simp [Boss.raiseEvent, hsm, hl, hterm0', lookupTask_updTask, failTask]
        · rw [errorOf]
          simp [Boss.raiseEvent, hsm, hl, hterm0', lookupTask_updTask, failTask]

/-- Witness for C2 at a concrete Boss: `research_done` in state `awake`
with Running task 1 as trigger. -/
theorem invalid_event_rejected_atomically_witness :
    (wS2.raiseEvent (some 1) .research_done).2 = .error .InvalidTransitionError ∧
    (wS2.raiseEvent (some 1) .research_done).1.sm = wS2.sm ∧
    statusOf (wS2.raiseEvent (some 1) .research_done).1 1 = some .Failed ∧
    errorOf (wS2.raiseEvent (some 1) .research_done).1 1 = some .InvalidTransitionError := by
  have h := invalid_event_rejected_atomically wS2 (some 1) .research_done (by decide)
  have h3 := h.2.2 1 rfl .Running (by decide) (by decide)
  exact ⟨h.1, h.2.1, h3.1, h3.2⟩

/-- C4: with rethink budget `maxR`, `synthesis_rejected` in `thinking`
moves to `rethink` while the count is below the budget and to `reflecting`
(emitting `RethinkBudgetExceeded`) otherwise; any run of at least
`maxR - c + 1` rejection rounds starting from `thinking` with count `c`
ends in `reflecting`, so the rethink loop cannot repeat unboundedly. -/
theorem rethink_budget_bounds (maxR : Nat) :
    (∀ c, c < maxR →
      smStep maxR ⟨.thinking, c⟩ .synthesis_rejected = .ok (⟨.rethink, c + 1⟩, none)) ∧
    (∀ c, maxR ≤ c →
      smStep maxR ⟨.thinking, c⟩ .synthesis_rejected =
        .ok (⟨.reflecting, c⟩, some .RethinkBudgetExceeded)) ∧
    (∀ n c, 1 ≤ n → maxR < c + n →
      (rejectRounds maxR n ⟨.thinking, c⟩).state = .reflecting) := by
  refine ⟨?_, ?_, rejectRounds_reaches_reflecting maxR⟩
  · intro c hc; simp [smStep, eventAllowed, hc]
  · intro c hc; simp [smStep, eventAllowed, Nat.not_lt.mpr hc]

/-- Witness for C4: max rethink 2, three rejections reach `reflecting`,
the last one emitting `RethinkBudgetExceeded`. -/
theorem rethink_budget_bounds_witness :
    smStep 2 ⟨.thinking, 0⟩ .synthesis_rejected = .ok (⟨.rethink, 1⟩, none) ∧
    smStep 2 ⟨.thinking, 2⟩ .synthesis_rejected =
      .ok (⟨.reflecting, 2⟩, some .RethinkBudgetExceeded) ∧
    (rejectRounds 2 3 ⟨.thinking, 0⟩).state = .reflecting := by
  have h := rethink_budget_bounds 2
  exact ⟨h.1 0 (by decide), h.2.1 2 (by decide), h.2.2 3 0 (by decide) (by decide)⟩

/-- C6: a Boss in state `stop` rejects every task submission with an
error and its `activeTasks` map (indeed the whole Boss) is unchanged. -/
theorem stopped_boss_rejects_submissions (b : Boss) (now tid : Nat)
    (desc : String) (a : AssigneeRef) (dl : Option Nat)
    (h : b.sm.state = .stop) :
    b.submitTask now tid desc a dl = (b, .error .InvalidTransitionError) ∧
    (b.submitTask now tid desc a dl).1.activeTasks = b.activeTasks := by
  have hacc : acceptingState b.sm.state = false := by rw [h]; rfl
  constructor <;> simp [Boss.submitTask, hacc]

/-- Witness for C6 at a concrete stopped Boss. -/
theorem stopped_boss_rejects_submissions_witness :
    wStop.submitTask 3 9 "late" (.SubBoss 1) none = (wStop, .error .InvalidTransitionError) ∧
    (wStop.submitTask 3 9 "late" (.SubBoss 1) none).1.activeTasks = wStop.activeTasks :=
  stopped_boss_rejects_submissions wStop 3 9 "late" (.SubBoss 1) none (by decide)

/-- C7: re-dispatching a `Running` task is a no-op returning the existing
outcome handle; the Boss (in particular the task's state) is unchanged, so
no second execution of the same task id is ever begun. -/
theorem dispatch_idempotent_on_running (b : Boss) (now tid : Nat)
    (h : statusOf b tid = some .Running) :
    b.dispatch now tid = (b, .ok tid) := by
  rw [statusOf] at h
  match hl : lookupTask b.activeTasks tid with
  | none => rw [hl] at h; simp at h
  | some t =>
    rw [hl] at h
    simp at h
    simp [Boss.dispatch, hl, h]

/-- Witness for C7: re-dispatching the Running task 1 of `wS2`. -/
theorem dispatch_idempotent_on_running_witness :
    wS2.dispatch 4 1 = (wS2, .ok 1) :=
  dispatch_idempotent_on_running wS2 4 1 (by decide)

end DspyBoss

namespace SafeLavaLamp

/-- C9: a module-load exception is caught inside SafeLavaLamp: the thrown
message is recorded in state and `null` is returned, so the exception
never reaches the parent; and whenever an error has been recorded, or
`showLamp` is still false — in particular on the first render, before the
mount timer fires — the component returns `null`. -/
theorem render_catches_and_returns_null (st : LampState) (load : LoadResult) :
    (∀ m, st.errorMsg = some m →
      render st load = (.nullRender, st)) ∧
    (st.showLamp = false → (render st load).1 = .nullRender) ∧
    (∀ m, st.errorMsg = none → st.showLamp = true → load = .throws m →
      render st load = (.nullRender, { st with errorMsg := some m })) ∧
    (render initialState load).1 = .nullRender := by
  refine ⟨?_, ?_, ?_, ?_⟩
  · intro m hm; simp [render, hm]
  · intro hs
    match he : st.errorMsg with
    | some m => simp [render, he]
    | none => simp [render, he, hs]
  · intro m he hs hload; simp [render, he, hs, hload]
  · cases load <;> rfl

/-- Witness for C9: a throwing module load on a mounted, error-free state
returns `null` and records the message; the initial render is `null`. -/
theorem render_catches_and_returns_null_witness :
    render (afterMountTimer initialState) (.throws "boom") =
      (.nullRender, { showLamp := true, errorMsg := some "boom" }) ∧
    (render initialState (.throws "boom")).1 = .nullRender := by
  have h := render_catches_and_returns_null (afterMountTimer initialState) (.throws "boom")
  exact ⟨h.2.2.1 "boom" rfl rfl rfl, h.2.2.2⟩

end SafeLavaLamp

namespace TradingBotGraphic

/-- C10: TradingBotGraphic takes no props and is deterministic: any two
renders are identical, and both charts are fed from the fixed module-level
`data` constant of exactly 7 monthly entries Jan through Jul with the
fixed `uv` values. -/
theorem render_deterministic_fixed_data :
    (∀ u v : Unit, render u = render v) ∧
    data.length = 7 ∧
    data.map (fun p => p.name) = ["Jan", "Feb", "Mar", "Apr", "May", "Jun", "Jul"] ∧
    data.map (fun p => p.uv) = [4000, 3000, 2000, 2780, 1890, 2390, 3490] ∧
    (∀ u : Unit, (render u).chartMain = data ∧ (render u).chartReflection = data) :=
  ⟨fun _ _ => rfl, rfl, rfl, rfl, fun _ => ⟨rfl, rfl⟩⟩

/-- Witness for C10 at the concrete render input. -/
theorem render_deterministic_fixed_data_witness :
    render () = render () ∧ (render ()).chartMain = data :=
  ⟨(render_deterministic_fixed_data).1 () (), ((render_deterministic_fixed_data).2.2.2.2 ()).1⟩

end TradingBotGraphic

namespace DspyBoss

/-- C3: when a `HumanAwaitingEntry`'s timeout has elapsed at `now` and the
task is still `AwaitingHuman`, the timeout pass marks the task `Failed`
with a `HumanTimeout` error and raises `task_failed` to the Boss state
machine, which transitions to `reflecting` (from any of the active
states). -/
theorem human_timeout_fails_task_and_reflects (b : Boss) (now tid : Nat)
    (e : HumanAwaitingEntry) (he : e ∈ b.awaiting) (hid : e.taskId = tid)
    (hexp : e.timeoutAt ≤ now)
    (hstat : statusOf b tid = some .AwaitingHuman)
    (hsm : b.sm.state = .executing ∨ b.sm.state = .researching ∨ b.sm.state = .thinking) :
    statusOf (b.tick now) tid = some .Failed ∧
    errorOf (b.tick now) tid = some .HumanTimeout ∧
    (b.tick now).sm.state = .reflecting := by
  have hexpb : expiredAt now e = true := by simp [expiredAt, hexp]
  have hmem : tid ∈ ((b.awaiting.filter (expiredAt now)).map (fun u => u.taskId)) :=
    List.mem_map.mpr ⟨e, List.mem_filter.mpr ⟨he, hexpb⟩, hid⟩
  rw [statusOf] at hstat
  match hl : lookupTask b.activeTasks tid with
  | none => rw [hl] at hstat; simp at hstat
  | some t =>
    rw [hl] at hstat
    simp at hstat
    have hany : b.awaiting.any (expiredAt now) = true :=
      List.any_eq_true.mpr ⟨e, he, hexpb⟩
    refine ⟨?_, ?_, ?_⟩
    · rw [statusOf]
      simp only [Boss.tick, lookupTask_mapTasks, hl]
      rw [Option.map_some', if_pos ⟨hmem, hstat⟩]
      rfl
    · rw [errorOf]
      simp only [Boss.tick, lookupTask_mapTasks, hl]
      rw [Option.map_some', Option.some_bind, if_pos ⟨hmem, hstat⟩]
      rfl
    · simp only [Boss.tick]
      rw [if_pos hany, smApply_task_failed _ _ hsm]

/-- Witness for C3: the human-assigned task 1 of `wH3` with a 5-unit
deadline, ticked at time 5, while the Boss is `executing`. -/
theorem human_timeout_fails_task_and_reflects_witness :
    statusOf (wH3.tick 5) 1 = some .Failed ∧
    errorOf (wH3.tick 5) 1 = some .HumanTimeout ∧
    (wH3.tick 5).sm.state = .reflecting :=
  human_timeout_fails_task_and_reflects wH3 5 1 ⟨1, "ask", 0, 5⟩
    (by decide) rfl (by decide) (by decide) (by decide)

end DspyBoss


namespace DspyBoss

theorem statusStepOk_refl (so : Option TaskStatus) : statusStepOk so so := by
  cases so <;> simp [statusStepOk]

theorem lookupTask_cons (i : Nat) (t : Task) (l : List (Nat × Task)) (tid : Nat) :
    lookupTask ((i, t) :: l) tid = if i = tid then some t else lookupTask l tid := rfl

theorem allowed_to_cancelled {s : TaskStatus} (h : isTerminal s = false) :
    allowedTransition s .Cancelled := by
  cases s <;> revert h <;> decide

theorem allowed_to_failed {s : TaskStatus} (h : isTerminal s = false) :
    allowedTransition s .Failed := by
  cases s <;> revert h <;> decide

theorem statusStepOk_upd_boss (b b' : Boss) (tid tid' : Nat) (f : Task → Task)
    (hb' : b'.activeTasks = updTask b.activeTasks tid f)
    (h : ∀ t, lookupTask b.activeTasks tid = some t →
        statusStepOk (some t.status) (some (f t).status)) :
    statusStepOk (statusOf b tid') (statusOf b' tid') := by
  simp only [statusOf, hb', lookupTask_updTask]
  by_cases hh : tid' = tid
  · subst hh
    cases hl : lookupTask b.activeTasks tid' with
    | none => simp [statusStepOk]
    | some t =>
      simpa using h t hl
  · simp only [if_neg hh]
    cases lookupTask b.activeTasks tid' with
    | none => simp [statusStepOk]
    | some t => exact statusStepOk_refl _

theorem statusStepOk_map_boss (b b' : Boss) (g : Nat → Task → Task) (tid' : Nat)
    (hb' : b'.activeTasks = mapTasks g b.activeTasks)
    (h : ∀ t, lookupTask b.activeTasks tid' = some t →
        statusStepOk (some t.status) (some (g tid' t).status)) :
    statusStepOk (statusOf b tid') (statusOf b' tid') := by
  simp only [statusOf, hb', lookupTask_mapTasks]
  cases hl : lookupTask b.activeTasks tid' with
  | none => simp [statusStepOk]
  | some t =>
    simp only [Option.map_some']
    exact h t hl

theorem opStatus_submit (b : Boss) (now tid : Nat) (desc : String)
    (a : AssigneeRef) (dl : Option Nat) (tid' : Nat) :
    statusStepOk (statusOf b tid') (statusOf (b.submitTask now tid desc a dl).1 tid') := by
  by_cases h1 : acceptingState b.sm.state = true
  · cases hl : lookupTask b.activeTasks tid with
    | some t => simp [Boss.submitTask, h1, hl, statusStepOk_refl]
    | none =>
      by_cases h3 : a ∈ b.registry
      · by_cases h4 : needsDeadline a dl = true
        · simp [Boss.submitTask, h1, hl, h3, h4, statusStepOk_refl]
        · have h4' : needsDeadline a dl = false := by simpa using h4
          simp only [Boss.submitTask, h1, hl, h3, h4', Option.isSome_none,
            Bool.false_eq_true, if_false, if_true]
          simp only [statusOf, lookupTask_cons]
          by_cases h5 : tid = tid'
          · subst h5
            rw [if_pos rfl, hl]
            simp [statusStepOk, mkTask]
          · rw [if_neg h5]
            exact statusStepOk_refl _
      · simp [Boss.submitTask, h1, hl, h3, statusStepOk_refl]
  · have h1' : acceptingState b.sm.state = false := by simpa using h1
    simp [Boss.submitTask, h1', statusStepOk_refl]

theorem opStatus_dispatch (b : Boss) (now tid tid' : Nat) :
    statusStepOk (statusOf b tid') (statusOf (b.dispatch now tid).1 tid') := by
  unfold Boss.dispatch
  cases hl : lookupTask b.activeTasks tid with
  | none => exact statusStepOk_refl _
  | some t =>
    obtain ⟨i0, d0, c0, a0, s0, r0, e0, dl0⟩ := t
    cases s0 with
    | Running => exact statusStepOk_refl _
    | Pending =>
      cases a0 with
      | none => exact statusStepOk_refl _
      | some ar =>
        cases ar with
        | SubBoss bid =>
          dsimp only
          refine statusStepOk_upd_boss b _ tid tid'
            (fun u => { u with status := TaskStatus.Running }) rfl ?_
          intro u hu
          rw [hl] at hu
          injection hu with hu
          subst hu
          dsimp only
          decide
        | HumanAgent aid =>
          cases dl0 with
          | none => exact statusStepOk_refl _
          | some dlv =>
            dsimp only
            refine statusStepOk_upd_boss b _ tid tid'
              (fun u => { u with status := TaskStatus.AwaitingHuman }) rfl ?_
            intro u hu
            rw [hl] at hu
            injection hu with hu
            subst hu
            dsimp only
            decide
    | AwaitingHuman => exact statusStepOk_refl _
    | Completed => exact statusStepOk_refl _
    | Failed => exact statusStepOk_refl _
    | Cancelled => exact statusStepOk_refl _

theorem opStatus_awaitHuman (b : Boss) (now tid : Nat) (prompt : String)
    (timeout : Nat) (tid' : Nat) :
    statusStepOk (statusOf b tid') (statusOf (b.awaitHuman now tid prompt timeout).1 tid') := by
  unfold Boss.awaitHuman
  cases hl : lookupTask b.activeTasks tid with
  | none => exact statusStepOk_refl _
  | some t =>
    obtain ⟨i0, d0, c0, a0, s0, r0, e0, dl0⟩ := t
    cases s0 with
    | Running =>
      dsimp only
      rw [if_pos rfl]
      refine statusStepOk_upd_boss b _ tid tid'
        (fun u => { u with status := TaskStatus.AwaitingHuman }) rfl ?_
      intro u hu
      rw [hl] at hu
      injection hu with hu
      subst hu
      dsimp only
      decide
    | Pending => exact statusStepOk_refl _
    | AwaitingHuman => exact statusStepOk_refl _
    | Completed => exact statusStepOk_refl _
    | Failed => exact statusStepOk_refl _
    | Cancelled => exact statusStepOk_refl _

theorem opStatus_resume (b : Boss) (tid : Nat) (response : String) (tid' : Nat) :
    statusStepOk (statusOf b tid') (statusOf (b.resume tid response).1 tid') := by
  unfold Boss.resume
  cases hl : lookupTask b.activeTasks tid with
  | none => exact statusStepOk_refl _
  | some t =>
    obtain ⟨i0, d0, c0, a0, s0, r0, e0, dl0⟩ := t
    cases s0 with
    | AwaitingHuman =>
      dsimp only
      rw [if_pos rfl]
      refine statusStepOk_upd_boss b _ tid tid'
        (fun u => { u with status := TaskStatus.Running }) rfl ?_
      intro u hu
      rw [hl] at hu
      injection hu with hu
      subst hu
      dsimp only
      decide
    | Pending => exact statusStepOk_refl _
    | Running => exact statusStepOk_refl _
    | Completed => exact statusStepOk_refl _
    | Failed => exact statusStepOk_refl _
    | Cancelled => exact statusStepOk_refl _

theorem opStatus_cancel (b : Boss) (tid tid' : Nat) :
    statusStepOk (statusOf b tid') (statusOf (b.cancel tid).1 tid') := by
  unfold Boss.cancel
  cases hl : lookupTask b.activeTasks tid with
  | none => exact statusStepOk_refl _
  | some t =>
    obtain ⟨i0, d0, c0, a0, s0, r0, e0, dl0⟩ := t
    cases s0 with
    | Completed => exact statusStepOk_refl _
    | Failed => exact statusStepOk_refl _
    | Cancelled => exact statusStepOk_refl _
    | Pending =>
      dsimp only
      rw [if_neg (by decide)]
      refine statusStepOk_upd_boss b _ tid tid' cancelMark rfl ?_
      intro u hu
      rw [hl] at hu
      injection hu with hu
      subst hu
      dsimp only [cancelMark]
      decide
    | Running =>
      dsimp only
      rw [if_neg (by decide)]
      refine statusStepOk_upd_boss b _ tid tid' cancelMark rfl ?_
      intro u hu
      rw [hl] at hu
      injection hu with hu
      subst hu
      dsimp only [cancelMark]
      decide
    | AwaitingHuman =>
      dsimp only
      rw [if_neg (by decide)]
      refine statusStepOk_upd_boss b _ tid tid' cancelMark rfl ?_
      intro u hu
      rw [hl] at hu
      injection hu with hu
      subst hu
      dsimp only [cancelMark]
      decide

theorem opStatus_complete (b : Boss) (tid : Nat) (payload : String) (tid' : Nat) :
    statusStepOk (statusOf b tid') (statusOf (b.complete tid payload).1 tid') := by
  unfold Boss.complete
  cases hl : lookupTask b.activeTasks tid with
  | none => exact statusStepOk_refl _
  | some t =>
    obtain ⟨i0, d0, c0, a0, s0, r0, e0, dl0⟩ := t
    cases s0 with
    | Running =>
      dsimp only
      rw [if_pos rfl]
      refine statusStepOk_upd_boss b _ tid tid'
        (fun u => { u with status := TaskStatus.Completed, result := some payload }) rfl ?_
      intro u hu
      rw [hl] at hu
      injection hu with hu
      subst hu
      dsimp only
      decide
    | Pending => exact statusStepOk_refl _
    | AwaitingHuman => exact statusStepOk_refl _
    | Completed => exact statusStepOk_refl _
    | Failed => exact statusStepOk_refl _
    | Cancelled => exact statusStepOk_refl _

theorem opStatus_failTaskOp (b : Boss) (tid : Nat) (err : ErrKind) (tid' : Nat) :
    statusStepOk (statusOf b tid') (statusOf (b.failTaskOp tid err).1 tid') := by
  unfold Boss.failTaskOp
  cases hl : lookupTask b.activeTasks tid with
  | none => exact statusStepOk_refl _
  | some t =>
    obtain ⟨i0, d0, c0, a0, s0, r0, e0, dl0⟩ := t
    cases s0 with
    | Completed => exact statusStepOk_refl _
    | Failed => exact statusStepOk_refl _
    | Cancelled => exact statusStepOk_refl _
    | Pending =>
      dsimp only
      rw [if_neg (by decide)]
      refine statusStepOk_upd_boss b _ tid tid' (fun u => failTask u err) rfl ?_
      intro u hu
      rw [hl] at hu
      injection hu with hu
      subst hu
      dsimp only [failTask]
      decide
    | Running =>
      dsimp only
      rw [if_neg (by decide)]
      refine statusStepOk_upd_boss b _ tid tid' (fun u => failTask u err) rfl ?_
      intro u hu
      rw [hl] at hu
      injection hu with hu
      subst hu
      dsimp only [failTask]
      decide
    | AwaitingHuman =>
      dsimp only
      rw [if_neg (by decide)]
      refine statusStepOk_upd_boss b _ tid tid' (fun u => failTask u err) rfl ?_
      intro u hu
      rw [hl] at hu
      injection hu with hu
      subst hu
      dsimp only [failTask]
      decide

theorem opStatus_raiseEvent (b : Boss) (trigger : Option Nat) (e : Event) (tid' : Nat) :
    statusStepOk (statusOf b tid') (statusOf (b.raiseEvent trigger e).1 tid') := by
  unfold Boss.raiseEvent
  cases hstep : smStep b.maxRethink b.sm e with
  | ok p => exact statusStepOk_refl _
  | error errv =>
    cases trigger with
    | none => exact statusStepOk_refl _
    | some tid =>
      dsimp only
      cases hl : lookupTask b.activeTasks tid with
      | none => exact statusStepOk_refl _
      | some t =>
        obtain ⟨i0, d0, c0, a0, s0, r0, e0, dl0⟩ := t
        cases s0 with
        | Completed => exact statusStepOk_refl _
        | Failed => exact statusStepOk_refl _
        | Cancelled => exact statusStepOk_refl _
        | Pending =>
          dsimp only
          rw [if_neg (by decide)]
          refine statusStepOk_upd_boss b _ tid tid'
            (fun u => failTask u .InvalidTransitionError) rfl ?_
          intro u hu
          rw [hl] at hu
          injection hu with hu
          subst hu
          dsimp only [failTask]
          decide
        | Running =>
          dsimp only
          rw [if_neg (by decide)]
          refine statusStepOk_upd_boss b _ tid tid'
            (fun u => failTask u .InvalidTransitionError) rfl ?_
          intro u hu
          rw [hl] at hu
          injection hu with hu
          subst hu
          dsimp only [failTask]
          decide
        | AwaitingHuman =>
          dsimp only
          rw [if_neg (by decide)]
          refine statusStepOk_upd_boss b _ tid tid'
            (fun u => failTask u .InvalidTransitionError) rfl ?_
          intro u hu
          rw [hl] at hu
          injection hu with hu
          subst hu
          dsimp only [failTask]
          decide

theorem opStatus_tick (b : Boss) (now tid' : Nat) :
    statusStepOk (statusOf b tid') (statusOf (b.tick now) tid') := by
  unfold Boss.tick
  refine statusStepOk_map_boss b _
    (fun i t =>
      if i ∈ ((b.awaiting.filter (expiredAt now)).map (fun e => e.taskId)) ∧
         t.status = .AwaitingHuman
      then failTask t .HumanTimeout else t) tid' rfl ?_
  intro t _
  dsimp only
  by_cases hc : tid' ∈ ((b.awaiting.filter (expiredAt now)).map (fun u => u.taskId)) ∧
      t.status = .AwaitingHuman
  · rw [if_pos hc]
    dsimp only [failTask]
    rw [hc.2]
    decide
  · rw [if_neg hc]
    exact statusStepOk_refl _

theorem opStatus_stopBoss (b : Boss) (tid' : Nat) :
    statusStepOk (statusOf b tid') (statusOf b.stopBoss tid') := by
  unfold Boss.stopBoss
  refine statusStepOk_map_boss b _
    (fun _ t => if isTerminal t.status then t else cancelMark t) tid' rfl ?_
  intro t _
  dsimp only
  by_cases hs : isTerminal t.status = true
  · rw [if_pos hs]
    exact statusStepOk_refl _
  · have hs' : isTerminal t.status = false := by simpa using hs
    rw [if_neg hs]
    dsimp only [cancelMark]
    exact Or.inr (allowed_to_cancelled hs')

theorem statusStepOk_terminal_fixed {so so' : Option TaskStatus}
    (h : statusStepOk so so') (s : TaskStatus) (hs : so = some s)
    (ht : isTerminal s = true) : so' = some s := by
  subst hs
  cases so' with
  | none => exact absurd h (by simp [statusStepOk])
  | some s' =>
    rcases h with h | h
    · rw [h]
    · rw [h.1] at ht; cases ht

/-- C1: every operation changes a task's status only along the permitted
relation — forward in the declared order, with `AwaitingHuman → Running`
as the only backward transition and `Cancelled` reachable from any
non-terminal status — and never moves a task out of a terminal status, so
each task visits at most one terminal status, exactly once. -/
theorem task_status_transitions_sound {b b' : Boss} (h : OpStep b b') (tid : Nat) :
    statusStepOk (statusOf b tid) (statusOf b' tid) ∧
    (∀ s, statusOf b tid = some s → isTerminal s = true → statusOf b' tid = some s) := by
  have hok : statusStepOk (statusOf b tid) (statusOf b' tid) := by
    cases h with
    | submit now tid0 desc a dl => exact opStatus_submit b now tid0 desc a dl tid
    | dispatch now tid0 => exact opStatus_dispatch b now tid0 tid
    | awaitH now tid0 prompt timeout => exact opStatus_awaitHuman b now tid0 prompt timeout tid
    | resume tid0 response => exact opStatus_resume b tid0 response tid
    | cancel tid0 => exact opStatus_cancel b tid0 tid
    | complete tid0 payload => exact opStatus_complete b tid0 payload tid
    | fail tid0 err => exact opStatus_failTaskOp b tid0 err tid
    | raiseEv trigger e => exact opStatus_raiseEvent b trigger e tid
    | tick now => exact opStatus_tick b now tid
    | stopB => exact opStatus_stopBoss b tid
  exact ⟨hok, fun s hs ht => statusStepOk_terminal_fixed hok s hs ht⟩

/-- Witness for C1: the submission step from `wSub` to `wS1` observed at
task id 1. -/
theorem task_status_transitions_sound_witness :
    statusStepOk (statusOf wSub 1) (statusOf wS1 1) :=
  (task_status_transitions_sound
    (OpStep.submit wSub 0 1 "delegate" (.SubBoss 1) none) 1).1

end DspyBoss

namespace DspyBoss

theorem mem_removeEntries {l : List HumanAwaitingEntry} {tid : Nat}
    {e : HumanAwaitingEntry} :
    e ∈ removeEntries l tid ↔ e ∈ l ∧ e.taskId ≠ tid := by
  simp [removeEntries]

theorem pairwise_removeEntries {l : List HumanAwaitingEntry} (tid : Nat)
    (h : l.Pairwise (fun e1 e2 => e1.taskId ≠ e2.taskId)) :
    (removeEntries l tid).Pairwise (fun e1 e2 => e1.taskId ≠ e2.taskId) :=
  List.Pairwise.sublist (List.filter_sublist _) h

theorem taskOutcomeOk_nonterminal {t : Task} (h : taskOutcomeOk t)
    (ht : isTerminal t.status = false) : t.result = none ∧ t.error = none := by
  unfold taskOutcomeOk at h
  cases hs : t.status <;> rw [hs] at h ht <;>
    first
      | exact h
      | exact absurd ht (by decide)

theorem terminal_not_awaiting {s : TaskStatus} (h : isTerminal s = true) :
    s ≠ .AwaitingHuman := by
  cases s <;> revert h <;> decide

theorem inv_upd_same_awaiting (b b' : Boss) (tid : Nat) (f : Task → Task) (t : Task)
    (hT : b'.activeTasks = updTask b.activeTasks tid f)
    (hW : b'.awaiting = b.awaiting)
    (hl : lookupTask b.activeTasks tid = some t)
    (h2 : t.status ≠ .AwaitingHuman)
    (h1 : (f t).status ≠ .AwaitingHuman)
    (h3 : taskOutcomeOk (f t))
    (hinv : Inv b) : Inv b' := by
  obtain ⟨hA, hB, hP⟩ := hinv
  refine ⟨?_, ?_, ?_⟩
  · intro e he
    rw [hW] at he
    obtain ⟨u, hu, hus⟩ := hA e he
    rw [hT, lookupTask_updTask]
    by_cases hh : e.taskId = tid
    · rw [hh] at hu
      rw [hu] at hl
      injection hl with hl
      rw [← hl] at h2
      exact absurd hus h2
    · refine ⟨u, ?_, hus⟩
      rw [hu]
      simp [hh]
  · intro tid' u hu'
    rw [hT, lookupTask_updTask] at hu'
    by_cases hh : tid' = tid
    · subst hh
      rw [hl] at hu'
      simp at hu'
      constructor
      · intro hAH
        rw [← hu'] at hAH
        exact absurd hAH h1
      · rw [← hu']
        exact h3
    · simp [hh] at hu'
      have hb := hB tid' u hu'
      rw [hW]
      exact hb
  · rw [hW]
    exact hP

theorem inv_upd_cons_entry (b b' : Boss) (tid : Nat) (f : Task → Task) (t : Task)
    (en : HumanAwaitingEntry)
    (hT : b'.activeTasks = updTask b.activeTasks tid f)
    (hW : b'.awaiting = en :: b.awaiting)
    (hl : lookupTask b.activeTasks tid = some t)
    (hts : t.status ≠ .AwaitingHuman)
    (hfs : (f t).status = .AwaitingHuman)
    (hen : en.taskId = tid)
    (h3 : taskOutcomeOk (f t))
    (hinv : Inv b) : Inv b' := by
  obtain ⟨hA, hB, hP⟩ := hinv
  have hfresh : ∀ e ∈ b.awaiting, e.taskId ≠ tid := by
    intro e he hcontra
    obtain ⟨u, hu, hus⟩ := hA e he
    rw [hcontra] at hu
    rw [hu] at hl
    injection hl with hl
    rw [← hl] at hts
    exact absurd hus hts
  refine ⟨?_, ?_, ?_⟩
  · intro e he
    rw [hW] at he
    rcases List.mem_cons.mp he with he | he
    · subst he
      refine ⟨f t, ?_, hfs⟩
      rw [hT, lookupTask_updTask, hen, hl]
      simp
    · obtain ⟨u, hu, hus⟩ := hA e he
      refine ⟨u, ?_, hus⟩
      rw [hT, lookupTask_updTask, hu]
      simp [hfresh e he]
  · intro tid' u hu'
    rw [hT, lookupTask_updTask] at hu'
    by_cases hh : tid' = tid
    · subst hh
      rw [hl] at hu'
      simp at hu'
      constructor
      · intro _
        refine ⟨en, ?_, hen⟩
        rw [hW]
        exact List.mem_cons_self en b.awaiting
      · rw [← hu']
        exact h3
    · simp [hh] at hu'
      have hb := hB tid' u hu'
      constructor
      · intro hAH
        obtain ⟨e, he, hetid⟩ := hb.1 hAH
        refine ⟨e, ?_, hetid⟩
        rw [hW]
        exact List.mem_cons_of_mem en he
      · exact hb.2
  · rw [hW]
    refine List.Pairwise.cons ?_ hP
    intro e he
    rw [hen]
    exact fun hc => hfresh e he hc.symm

theorem inv_upd_remove_entry (b b' : Boss) (tid : Nat) (f : Task → Task) (t : Task)
    (hT : b'.activeTasks = updTask b.activeTasks tid f)
    (hW : b'.awaiting = removeEntries b.awaiting tid)
    (hl : lookupTask b.activeTasks tid = some t)
    (hfs : (f t).status ≠ .AwaitingHuman)
    (h3 : taskOutcomeOk (f t))
    (hinv : Inv b) : Inv b' := by
  obtain ⟨hA, hB, hP⟩ := hinv
  refine ⟨?_, ?_, ?_⟩
  · intro e he
    rw [hW] at he
    obtain ⟨he, hne⟩ := mem_removeEntries.mp he
    obtain ⟨u, hu, hus⟩ := hA e he
    refine ⟨u, ?_, hus⟩
    rw [hT, lookupTask_updTask, hu]
    simp [hne]
  · intro tid' u hu'
    rw [hT, lookupTask_updTask] at hu'
    by_cases hh : tid' = tid
    · subst hh
      rw [hl] at hu'
      simp at hu'
      constructor
      · intro hAH
        rw [← hu'] at hAH
        exact absurd hAH hfs
      · rw [← hu']
        exact h3
    · simp [hh] at hu'
      have hb := hB tid' u hu'
      constructor
      · intro hAH
        obtain ⟨e, he, hetid⟩ := hb.1 hAH
        refine ⟨e, ?_, hetid⟩
        rw [hW]
        refine mem_removeEntries.mpr ⟨he, ?_⟩
        rw [hetid]
        exact hh
      · exact hb.2
  · rw [hW]
    exact pairwise_removeEntries tid hP

theorem inv_cons_task (b b' : Boss) (tid : Nat) (tnew : Task)
    (hT : b'.activeTasks = (tid, tnew) :: b.activeTasks)
    (hW : b'.awaiting = b.awaiting)
    (hnone : lookupTask b.activeTasks tid = none)
    (hsn : tnew.status ≠ .AwaitingHuman)
    (hok : taskOutcomeOk tnew)
    (hinv : Inv b) : Inv b' := by
  obtain ⟨hA, hB, hP⟩ := hinv
  refine ⟨?_, ?_, ?_⟩
  · intro e he
    rw [hW] at he
    obtain ⟨u, hu, hus⟩ := hA e he
    rw [hT, lookupTask_cons]
    by_cases hh : tid = e.taskId
    · rw [← hh] at hu
      rw [hnone] at hu
      cases hu
    · rw [if_neg hh]
      exact ⟨u, hu, hus⟩
  · intro tid' u hu'
    rw [hT, lookupTask_cons] at hu'
    by_cases hh : tid = tid'
    · rw [if_pos hh] at hu'
      injection hu' with hu'
      constructor
      · intro hAH
        rw [hu'] at hsn
        exact absurd hAH hsn
      · rw [← hu']
        exact hok
    · rw [if_neg hh] at hu'
      have hb := hB tid' u hu'
      rw [hW]
      exact hb
  · rw [hW]
    exact hP

theorem inv_tick (b : Boss) (now : Nat) (hinv : Inv b) : Inv (b.tick now) := by
  obtain ⟨hA, hB, hP⟩ := hinv
  have hsymm : Symmetric (fun e1 e2 : HumanAwaitingEntry => e1.taskId ≠ e2.taskId) :=
    fun e1 e2 h => fun hc => h hc.symm
  have hnot : ∀ e ∈ b.awaiting, expiredAt now e = false →
      e.taskId ∉ ((b.awaiting.filter (expiredAt now)).map (fun u => u.taskId)) := by
    intro e he hexp hmem
    obtain ⟨e2, he2, hid2⟩ := List.mem_map.mp hmem
    obtain ⟨he2m, he2exp⟩ := List.mem_filter.mp he2
    have hne : e2 ≠ e := by
      intro hc
      rw [hc, hexp] at he2exp
      cases he2exp
    exact hP.forall hsymm he2m he (fun hc => hne (by cases hc; rfl) ) hid2
  refine ⟨?_, ?_, ?_⟩
  · intro e he
    unfold Boss.tick at he
    simp only [List.mem_filter] at he
    obtain ⟨he, hkeep⟩ := he
    have hexp : expiredAt now e = false := by
      cases hx : expiredAt now e
      · rfl
      · rw [hx] at hkeep; cases hkeep
    obtain ⟨u, hu, hus⟩ := hA e he
    refine ⟨u, ?_, hus⟩
    unfold Boss.tick
    dsimp only
    rw [lookupTask_mapTasks, hu]
    simp only [Option.map_some']
    rw [if_neg]
    intro ⟨hmem, _⟩
    exact hnot e he hexp hmem
  · intro tid' u hu'
    have hu'' : lookupTask (b.tick now).activeTasks tid' = some u := hu'
    unfold Boss.tick at hu''
    rw [lookupTask_mapTasks] at hu''
    cases hl : lookupTask b.activeTasks tid' with
    | none => rw [hl] at hu''; cases hu''
    | some v =>
      rw [hl] at hu''
      simp only [Option.map_some'] at hu''
      injection hu'' with hu''
      have hb := hB tid' v hl
      by_cases hc : tid' ∈ ((b.awaiting.filter (expiredAt now)).map (fun u => u.taskId)) ∧
          v.status = .AwaitingHuman
      · rw [if_pos hc] at hu''
        constructor
        · intro hAH
          rw [← hu''] at hAH
          exact absurd hAH (by simp [failTask])
        · rw [← hu'']
          have hvout := hb.2
          have hvnt : isTerminal v.status = false := by rw [hc.2]; rfl
          obtain ⟨hr, _⟩ := taskOutcomeOk_nonterminal hvout hvnt
          unfold taskOutcomeOk failTask
          simp [hr]
      · rw [if_neg hc] at hu''
        subst hu''
        constructor
        · intro hAH
          obtain ⟨e, he, hetid⟩ := hb.1 hAH
          have hnotmem : tid' ∉ ((b.awaiting.filter (expiredAt now)).map
              (fun u => u.taskId)) := fun hmem => hc ⟨hmem, hAH⟩
          have hexp : expiredAt now e = false := by
            cases hx : expiredAt now e
            · rfl
            · exfalso
              apply hnotmem
              refine List.mem_map.mpr ⟨e, ?_, hetid⟩
              exact List.mem_filter.mpr ⟨he, hx⟩
          refine ⟨e, ?_, hetid⟩
          show e ∈ (b.tick now).awaiting
          unfold Boss.tick
          simp only [List.mem_filter]
          exact ⟨he, by rw [hexp]; rfl⟩
        · exact hb.2
  · show ((b.awaiting.filter fun e => !expiredAt now e)).Pairwise _
    exact List.Pairwise.sublist (List.filter_sublist _) hP

theorem inv_stopBoss (b : Boss) (hinv : Inv b) : Inv b.stopBoss := by
  obtain ⟨hA, hB, hP⟩ := hinv
  refine ⟨?_, ?_, ?_⟩
  · intro e he
    cases he
  · intro tid' u hu'
    have hu'' : lookupTask b.stopBoss.activeTasks tid' = some u := hu'
    unfold Boss.stopBoss at hu''
    rw [lookupTask_mapTasks] at hu''
    cases hl : lookupTask b.activeTasks tid' with
    | none => rw [hl] at hu''; cases hu''
    | some v =>
      rw [hl] at hu''
      simp only [Option.map_some'] at hu''
      injection hu'' with hu''
      have hb := hB tid' v hl
      by_cases hs : isTerminal v.status = true
      · rw [if_pos hs] at hu''
        subst hu''
        constructor
        · intro hAH
          exact absurd hAH (terminal_not_awaiting hs)
        · exact hb.2
      · have hs' : isTerminal v.status = false := by simpa using hs
        rw [if_neg hs] at hu''
        constructor
        · intro hAH
          rw [← hu''] at hAH
          exact absurd hAH (by simp [cancelMark])
        · rw [← hu'']
          obtain ⟨hr, _⟩ := taskOutcomeOk_nonterminal hb.2 hs'
          unfold taskOutcomeOk cancelMark
          simp [hr]
  · exact List.Pairwise.nil


theorem inv_submit (b : Boss) (now tid : Nat) (desc : String) (a : AssigneeRef)
    (dl : Option Nat) (hinv : Inv b) : Inv (b.submitTask now tid desc a dl).1 := by
  by_cases h1 : acceptingState b.sm.state = true
  · cases hl : lookupTask b.activeTasks tid with
    | some t => simpa [Boss.submitTask, h1, hl] using hinv
    | none =>
      by_cases h3 : a ∈ b.registry
      · by_cases h4 : needsDeadline a dl = true
        · simpa [Boss.submitTask, h1, hl, h3, h4] using hinv
        · have h4' : needsDeadline a dl = false := by simpa using h4
          refine inv_cons_task b _ tid (mkTask tid desc now a dl) ?_ ?_ hl ?_ ?_ hinv
          · simp [Boss.submitTask, h1, hl, h3, h4']
          · simp [Boss.submitTask, h1, hl, h3, h4']
          · simp [mkTask]
          · simp [taskOutcomeOk, mkTask]
      · simpa [Boss.submitTask, h1, hl, h3] using hinv
  · have h1' : acceptingState b.sm.state = false := by simpa using h1
    simpa [Boss.submitTask, h1'] using hinv

theorem inv_dispatch (b : Boss) (now tid : Nat) (hinv : Inv b) :
    Inv (b.dispatch now tid).1 := by
  unfold Boss.dispatch
  cases hl : lookupTask b.activeTasks tid with
  | none => exact hinv
  | some t =>
    obtain ⟨i0, d0, c0, a0, s0, r0, e0, dl0⟩ := t
    have hb := hinv.2.1 tid _ hl
    cases s0 with
    | Running => exact hinv
    | Pending =>
      cases a0 with
      | none => exact hinv
      | some ar =>
        have hro : r0 = none ∧ e0 = none := hb.2
        cases ar with
        | SubBoss bid =>
          dsimp only
          refine inv_upd_same_awaiting b _ tid
            (fun u => { u with status := TaskStatus.Running }) _ rfl rfl hl ?_ ?_ ?_ hinv
          · simp
          · simp
          · show r0 = none ∧ e0 = none
            exact hro
        | HumanAgent aid =>
          cases dl0 with
          | none => exact hinv
          | some dlv =>
            dsimp only
            refine inv_upd_cons_entry b _ tid
              (fun u => { u with status := TaskStatus.AwaitingHuman }) _
              ⟨tid, d0, now, dlv⟩ rfl rfl hl ?_ rfl rfl ?_ hinv
            · simp
            · show r0 = none ∧ e0 = none
              exact hro
    | AwaitingHuman => exact hinv
    | Completed => exact hinv
    | Failed => exact hinv
    | Cancelled => exact hinv

theorem inv_awaitHuman (b : Boss) (now tid : Nat) (prompt : String) (timeout : Nat)
    (hinv : Inv b) : Inv (b.awaitHuman now tid prompt timeout).1 := by
  unfold Boss.awaitHuman
  cases hl : lookupTask b.activeTasks tid with
  | none => exact hinv
  | some t =>
    obtain ⟨i0, d0, c0, a0, s0, r0, e0, dl0⟩ := t
    have hb := hinv.2.1 tid _ hl
    cases s0 with
    | Running =>
      have hro : r0 = none ∧ e0 = none := hb.2
      dsimp only
      rw [if_pos rfl]
      refine inv_upd_cons_entry b _ tid
        (fun u => { u with status := TaskStatus.AwaitingHuman }) _
        ⟨tid, prompt, now, now + timeout⟩ rfl rfl hl ?_ rfl rfl ?_ hinv
      · simp
      · show r0 = none ∧ e0 = none
        exact hro
    | Pending => exact hinv
    | AwaitingHuman => exact hinv
    | Completed => exact hinv
    | Failed => exact hinv
    | Cancelled => exact hinv

theorem inv_resume (b : Boss) (tid : Nat) (response : String) (hinv : Inv b) :
    Inv (b.resume tid response).1 := by
  unfold Boss.resume
  cases hl : lookupTask b.activeTasks tid with
  | none => exact hinv
  | some t =>
    obtain ⟨i0, d0, c0, a0, s0, r0, e0, dl0⟩ := t
    have hb := hinv.2.1 tid _ hl
    cases s0 with
    | AwaitingHuman =>
      have hro : r0 = none ∧ e0 = none := hb.2
      dsimp only
      rw [if_pos rfl]
      refine inv_upd_remove_entry b _ tid
        (fun u => { u with status := TaskStatus.Running }) _ rfl rfl hl ?_ ?_ hinv
      · simp
      · show r0 = none ∧ e0 = none
        exact hro
    | Pending => exact hinv
    | Running => exact hinv
    | Completed => exact hinv
    | Failed => exact hinv
    | Cancelled => exact hinv

theorem inv_cancel (b : Boss) (tid : Nat) (hinv : Inv b) : Inv (b.cancel tid).1 := by
  unfold Boss.cancel
  cases hl : lookupTask b.activeTasks tid with
  | none => exact hinv
  | some t =>
    obtain ⟨i0, d0, c0, a0, s0, r0, e0, dl0⟩ := t
    have hb := hinv.2.1 tid _ hl
    cases s0 with
    | Completed => exact hinv
    | Failed => exact hinv
    | Cancelled => exact hinv
    | Pending =>
      have hro : r0 = none ∧ e0 = none := hb.2
      dsimp only
      rw [if_neg (by decide)]
      refine inv_upd_remove_entry b _ tid cancelMark _ rfl rfl hl ?_ ?_ hinv
      · simp [cancelMark]
      · show r0 = none ∧ (some ErrKind.CancelledTask).isSome = true
        exact ⟨hro.1, rfl⟩
    | Running =>
      have hro : r0 = none ∧ e0 = none := hb.2
      dsimp only
      rw [if_neg (by decide)]
      refine inv_upd_remove_entry b _ tid cancelMark _ rfl rfl hl ?_ ?_ hinv
      · simp [cancelMark]
      · show r0 = none ∧ (some ErrKind.CancelledTask).isSome = true
        exact ⟨hro.1, rfl⟩
    | AwaitingHuman =>
      have hro : r0 = none ∧ e0 = none := hb.2
      dsimp only
      rw [if_neg (by decide)]
      refine inv_upd_remove_entry b _ tid cancelMark _ rfl rfl hl ?_ ?_ hinv
      · simp [cancelMark]
      · show r0 = none ∧ (some ErrKind.CancelledTask).isSome = true
        exact ⟨hro.1, rfl⟩

theorem inv_complete (b : Boss) (tid : Nat) (payload : String) (hinv : Inv b) :
    Inv (b.complete tid payload).1 := by
  unfold Boss.complete
  cases hl : lookupTask b.activeTasks tid with
  | none => exact hinv
  | some t =>
    obtain ⟨i0, d0, c0, a0, s0, r0, e0, dl0⟩ := t
    have hb := hinv.2.1 tid _ hl
    cases s0 with
    | Running =>
      have hro : r0 = none ∧ e0 = none := hb.2
      dsimp only
      rw [if_pos rfl]
      refine inv_upd_same_awaiting b _ tid
        (fun u => { u with status := TaskStatus.Completed, result := some payload }) _
        rfl rfl hl ?_ ?_ ?_ hinv
      · simp
      · simp
      · show (some payload).isSome = true ∧ e0 = none
        exact ⟨rfl, hro.2⟩
    | Pending => exact hinv
    | AwaitingHuman => exact hinv
    | Completed => exact hinv
    | Failed => exact hinv
    | Cancelled => exact hinv

theorem inv_failTaskOp (b : Boss) (tid : Nat) (err : ErrKind) (hinv : Inv b) :
    Inv (b.failTaskOp tid err).1 := by
  unfold Boss.failTaskOp
  cases hl : lookupTask b.activeTasks tid with
  | none => exact hinv
  | some t =>
    obtain ⟨i0, d0, c0, a0, s0, r0, e0, dl0⟩ := t
    have hb := hinv.2.1 tid _ hl
    cases s0 with
    | Completed => exact hinv
    | Failed => exact hinv
    | Cancelled => exact hinv
    | Pending =>
      have hro : r0 = none ∧ e0 = none := hb.2
      dsimp only
      rw [if_neg (by decide)]
      refine inv_upd_remove_entry b _ tid (fun u => failTask u err) _ rfl rfl hl ?_ ?_ hinv
      · simp [failTask]
      · show r0 = none ∧ (some err).isSome = true
        exact ⟨hro.1, rfl⟩
    | Running =>
      have hro : r0 = none ∧ e0 = none := hb.2
      dsimp only
      rw [if_neg (by decide)]
      refine inv_upd_remove_entry b _ tid (fun u => failTask u err) _ rfl rfl hl ?_ ?_ hinv
      · simp [failTask]
      · show r0 = none ∧ (some err).isSome = true
        exact ⟨hro.1, rfl⟩
    | AwaitingHuman =>
      have hro : r0 = none ∧ e0 = none := hb.2
      dsimp only
      rw [if_neg (by decide)]
      refine inv_upd_remove_entry b _ tid (fun u => failTask u err) _ rfl rfl hl ?_ ?_ hinv
      · simp [failTask]
      · show r0 = none ∧ (some err).isSome = true
        exact ⟨hro.1, rfl⟩

theorem inv_raiseEvent (b : Boss) (trigger : Option Nat) (e : Event) (hinv : Inv b) :
    Inv (b.raiseEvent trigger e).1 := by
  unfold Boss.raiseEvent
  cases hstep : smStep b.maxRethink b.sm e with
  | ok p => exact hinv
  | error errv =>
    cases trigger with
    | none => exact hinv
    | some tid =>
      dsimp only
      cases hl : lookupTask b.activeTasks tid with
      | none => exact hinv
      | some t =>
        obtain ⟨i0, d0, c0, a0, s0, r0, e0, dl0⟩ := t
        have hb := hinv.2.1 tid _ hl
        cases s0 with
        | Completed => exact hinv
        | Failed => exact hinv
        | Cancelled => exact hinv
        | Pending =>
          have hro : r0 = none ∧ e0 = none := hb.2
          dsimp only
          rw [if_neg (by decide)]
          refine inv_upd_remove_entry b _ tid
            (fun u => failTask u .InvalidTransitionError) _ rfl rfl hl ?_ ?_ hinv
          · simp [failTask]
          · show r0 = none ∧ (some ErrKind.InvalidTransitionError).isSome = true
            exact ⟨hro.1, rfl⟩
        | Running =>
          have hro : r0 = none ∧ e0 = none := hb.2
          dsimp only
          rw [if_neg (by decide)]
          refine inv_upd_remove_entry b _ tid
            (fun u => failTask u .InvalidTransitionError) _ rfl rfl hl ?_ ?_ hinv
          · simp [failTask]
          · show r0 = none ∧ (some ErrKind.InvalidTransitionError).isSome = true
            exact ⟨hro.1, rfl⟩
        | AwaitingHuman =>
          have hro : r0 = none ∧ e0 = none := hb.2
          dsimp only
          rw [if_neg (by decide)]
          refine inv_upd_remove_entry b _ tid
            (fun u => failTask u .InvalidTransitionError) _ rfl rfl hl ?_ ?_ hinv
          · simp [failTask]
          · show r0 = none ∧ (some ErrKind.InvalidTransitionError).isSome = true
            exact ⟨hro.1, rfl⟩

theorem inv_init (bid maxR : Nat) (reg : List AssigneeRef) :
    Inv (initBoss bid maxR reg) := by
  refine ⟨?_, ?_, ?_⟩
  · intro e he
    cases he
  · intro tid t h
    cases h
  · exact List.Pairwise.nil

theorem opStep_inv {b b' : Boss} (h : OpStep b b') (hinv : Inv b) : Inv b' := by
  cases h with
  | submit now tid desc a dl => exact inv_submit b now tid desc a dl hinv
  | dispatch now tid => exact inv_dispatch b now tid hinv
  | awaitH now tid prompt timeout => exact inv_awaitHuman b now tid prompt timeout hinv
  | resume tid response => exact inv_resume b tid response hinv
  | cancel tid => exact inv_cancel b tid hinv
  | complete tid payload => exact inv_complete b tid payload hinv
  | fail tid err => exact inv_failTaskOp b tid err hinv
  | raiseEv trigger e => exact inv_raiseEvent b trigger e hinv
  | tick now => exact inv_tick b now hinv
  | stopB => exact inv_stopBoss b hinv

theorem reachable_inv {b0 b : Boss} (h : Reachable b0 b) (h0 : Inv b0) : Inv b := by
  induction h with
  | init => exact h0
  | step _ hs ih => exact opStep_inv hs ih

/-- C5: in every state reachable from a fresh Boss, a `HumanAwaitingEntry`
for a task id exists exactly when that task's status is `AwaitingHuman`:
the entry is created together with the transition into `AwaitingHuman` and
removed by resume, timeout, failure, cancellation and stop. -/
theorem awaiting_entry_iff_status (bid maxR : Nat) (reg : List AssigneeRef)
    {b : Boss} (h : Reachable (initBoss bid maxR reg) b) (tid : Nat) :
    hasEntry b tid ↔ statusOf b tid = some .AwaitingHuman := by
  have hinv := reachable_inv h (inv_init bid maxR reg)
  obtain ⟨hA, hB, _⟩ := hinv
  constructor
  · rintro ⟨e, he, hid⟩
    obtain ⟨t, ht, hts⟩ := hA e he
    rw [hid] at ht
    simp only [statusOf, ht, Option.map_some', hts]
  · intro hst
    simp only [statusOf] at hst
    cases hl : lookupTask b.activeTasks tid with
    | none => rw [hl] at hst; cases hst
    | some t =>
      rw [hl] at hst
      simp only [Option.map_some'] at hst
      injection hst with hst
      obtain ⟨e, he, hetid⟩ := (hB tid t hl).1 hst
      exact ⟨e, he, hetid⟩

/-- Witness for C5 at the human-assigned fixture: after dispatch, task 1 is
`AwaitingHuman` and has an entry. -/
theorem awaiting_entry_iff_status_witness :
    hasEntry wH2 1 ↔ statusOf wH2 1 = some .AwaitingHuman :=
  awaiting_entry_iff_status 0 2 [.HumanAgent 7]
    (Reachable.step
      (Reachable.step Reachable.init
        (OpStep.submit wHub 0 1 "ask" (.HumanAgent 7) (some 5)))
      (OpStep.dispatch wH1 0 1)) 1

/-- C8: in every reachable state, a task in a terminal status exposes
exactly one of a result payload and a structured error record. -/
theorem terminal_task_exactly_one_outcome (bid maxR : Nat) (reg : List AssigneeRef)
    {b : Boss} (h : Reachable (initBoss bid maxR reg) b) (tid : Nat) (t : Task)
    (hl : lookupTask b.activeTasks tid = some t)
    (hterm : isTerminal t.status = true) :
    (t.result.isSome = true ∧ t.error = none) ∨
    (t.result = none ∧ t.error.isSome = true) := by
  have hinv := reachable_inv h (inv_init bid maxR reg)
  have hout := (hinv.2.1 tid t hl).2
  unfold taskOutcomeOk at hout
  cases hs : t.status <;> rw [hs] at hout hterm <;>
    first
      | exact absurd hterm (by decide)
      | exact Or.inl hout
      | exact Or.inr hout

/-- Witness for C8 at the completed fixture task of `wS3`. -/
theorem terminal_task_exactly_one_outcome_witness :
    ∃ t, lookupTask wS3.activeTasks 1 = some t ∧
      ((t.result.isSome = true ∧ t.error = none) ∨
       (t.result = none ∧ t.error.isSome = true)) := by
  refine ⟨{ id := 1, description := "delegate", createdAt := 0,
            assignee := some (.SubBoss 1), status := .Completed,
            result := some "done", error := none, deadline := none }, by decide, ?_⟩
  exact terminal_task_exactly_one_outcome 0 2 [.SubBoss 1]
    (Reachable.step
      (Reachable.step
        (Reachable.step Reachable.init
          (OpStep.submit wSub 0 1 "delegate" (.SubBoss 1) none))
        (OpStep.dispatch wS1 0 1))
      (OpStep.complete wS2 1 "done")) 1 _ (by decide) (by decide)

end DspyBoss
